import Mathlib

/-!
Verification of the mbed TLS test-suite code generator
(`tests/scripts/generate_test_code.py`).

The Python source is shallowly embedded: every stateful loop becomes a
structurally recursive Lean function with the mutated locals passed as
explicit arguments, file writes become accumulated `String`s, and every
`raise GeneratorInputError(msg)` becomes `Except.error msg`.  Function and
argument names follow the Python source wherever Lean allows.
-/

deriving instance DecidableEq for Except

namespace GenTestCode

/-- The whitespace characters removed by Python's `str.strip()` for the
ASCII range (space, tab, newline, carriage return, vertical tab, form
feed).  The inputs handled by the generator are ASCII test files, so the
further Unicode space classes stripped by Python cannot occur. -/
def isPySpace (c : Char) : Bool :=
  c = ' ' || c = '\t' || c = '\n' || c = '\r' || c = '\x0b' || c = '\x0c'

/-- Python `s.strip()`: remove leading and trailing whitespace. -/
def pyStrip (s : String) : String :=
  String.mk (((s.data.dropWhile isPySpace).reverse.dropWhile isPySpace).reverse)

/-- Class `FileWrapper` (generate_test_code.py lines 195-234): a text source
together with the `line_no` counter.  `lines` holds the decoded raw lines
still to be read (each without the I/O layer's byte framing); iteration
end (`StopIteration`) is modelled by `none`. -/
structure FileWrapper where
  name : String
  lines : List String
  line_no : Nat
deriving DecidableEq, Repr

/-- Method `FileWrapper.__next__`: read one raw line, bump `line_no`, and yield
`line.decode(...).strip() + "\n"`. -/
def FileWrapper.next (f : FileWrapper) : Option (String × FileWrapper) :=
  match f.lines with
  | [] => none
  | raw :: rest =>
      some (pyStrip raw ++ "\n", { f with lines := rest, line_no := f.line_no + 1 })

/-- Function `split_dep` (lines 237-245): split the NOT character `!` from a
dependency: `('!', dep[1:])` for `!MACRO`, `('', dep)` for `MACRO`.
(The Python indexes `dep[0]`, so it is only ever applied to non-empty
tags; on `""` the second branch is taken here.) -/
def split_dep (dep : String) : String × String :=
  match dep.data with
  | '!' :: rest => ("!", String.mk rest)
  | _ => ("", dep)

/-- Function `gen_deps_one_line` (lines 269-279): one-line `#if` conjunction of the
dependency list, empty string for an empty list. -/
def gen_deps_one_line (deps : List String) : String :=
  (if deps.length ≠ 0 then "#if " else "")
    ++ String.intercalate " && "
        (deps.map (fun x => (split_dep x).1 ++ "defined(" ++ (split_dep x).2 ++ ")"))

/-- Function `gen_dispatch` (lines 307-334): the dispatch-table initializer entry
for one test function: guarded wrapper/NULL pair when there are
dependencies, bare wrapper entry otherwise. -/
def gen_dispatch (name : String) (deps : List String) : String :=
  if deps.length ≠ 0 then
    "\n" ++ gen_deps_one_line deps ++ "\n    " ++ name ++ "_wrapper,\n#else\n    NULL,\n#endif\n"
  else
    "\n    " ++ name ++ "_wrapper,\n"

/-- The `escaped_split` inner loop (lines 561-570): walk the characters with
the `escape` flag; an unescaped `ch` closes the current `part`, any other
character is appended to `part` and `escape = not escape and str[i] == '\\'`.
After the loop the final `part` is appended only when non-empty
(lines 571-572). -/
def escaped_split_loop (ch : Char) : List Char → Bool → String → List String → List String
  | [], _escape, part, out => if part.length ≠ 0 then out ++ [part] else out
  | c :: rest, escape, part, out =>
      if !escape && c = ch then
        escaped_split_loop ch rest escape "" (out ++ [part])
      else
        escaped_split_loop ch rest (!escape && c = '\\') (part.push c) out

/-- Function `escaped_split` (lines 548-573): split `s` on the character `ch` but
ignore escaped `\{ch}`; escape characters in the input are retained in
the output.  (The Python takes the separator as a one-character string
and raises `ValueError` on longer strings; the separator is therefore
modelled as a `Char`.) -/
def escaped_split (s : String) (ch : Char) : List String :=
  escaped_split_loop ch s.data false "" []

/-- Variant of the `escaped_split` loop that keeps the final `part`
unconditionally.  This is not in the Python source; it names the raw
field decomposition so that the handling of the last field by
`escaped_split` can be stated (claim C10). -/
def escaped_split_raw_loop (ch : Char) : List Char → Bool → String → List String → List String
  | [], _escape, part, out => out ++ [part]
  | c :: rest, escape, part, out =>
      if !escape && c = ch then
        escaped_split_raw_loop ch rest escape "" (out ++ [part])
      else
        escaped_split_raw_loop ch rest (!escape && c = '\\') (part.push c) out

/-- All fields of `s` split on unescaped `ch`, including a trailing empty
field. -/
def escaped_split_raw (s : String) (ch : Char) : List String :=
  escaped_split_raw_loop ch s.data false "" []

/-- Drop the last element of a list exactly when it is the empty string. -/
def strip_last_empty (l : List String) : List String :=
  if l.getLast? = some "" then l.dropLast else l

/-- One parsed test case, as yielded by `parse_test_data` (line 624):
display name, referenced function name, per-case dependency list and raw
argument tokens. -/
structure TestCase where
  name : String
  function : String
  deps : List String
  args : List String
deriving DecidableEq, Repr

/-- Does `pat` occur at the head of `s`? -/
def list_starts_with : List Char → List Char → Bool
  | _, [] => true
  | [], _ :: _ => false
  | c :: cs, p :: ps => c = p && list_starts_with cs ps

/-- The text after the first (leftmost) occurrence of `pat` in `s`, or
`none` when `pat` does not occur. -/
def drop_after_first : List Char → List Char → Option (List Char)
  | [], pat => if pat.isEmpty then some [] else none
  | c :: rest, pat =>
      if list_starts_with (c :: rest) pat then some ((c :: rest).drop pat.length)
      else drop_after_first rest pat

/-- The text captured by group 1 of `re.search('depends_on\:(.*)', line)`
(line 615): everything after the first occurrence of `depends_on:` in
`line`, or `none` when the substring does not occur.  (`re.search` scans
the whole line, it does not anchor at the start.) -/
def search_group1 (pat s : String) : Option String :=
  (drop_after_first s.data pat.data).map String.mk

/-- Whether `pat` occurs as a substring of `s` (the domain where
`re.search(pat-literal, s)` succeeds). -/
def strContains (s pat : String) : Bool :=
  (drop_after_first s.data pat.data).isSome

/-- Python `str.split(sep)` for a single-character separator `c`:
every field, including empty ones at either end. -/
def py_split_char (c : Char) : List Char → List (List Char)
  | [] => [[]]
  | x :: xs =>
      if x = c then [] :: py_split_char c xs
      else
        match py_split_char c xs with
        | [] => [[x]]
        | p :: ps => (x :: p) :: ps

/-- Python `s.split(c)` on strings. -/
def py_split (s : String) (c : Char) : List String :=
  (py_split_char c s.data).map String.mk

/-- Outcome of one non-blank, non-comment line consumed in the
`STATE_READ_ARGS` state of `parse_test_data`. -/
inductive ArgsLineResult where
  | deps (d : List String)
  | case (function : String) (args : List String)
  | err (e : String)
deriving DecidableEq, Repr

/-- The `STATE_READ_ARGS` branch of `parse_test_data` (lines 613-624): a line in
which `depends_on:` occurs records the case dependencies (colon-split,
stripped, empty entries removed); any other line is the argument line,
split by `escaped_split` into function name and argument tokens.
(`parts[0]` on an empty split would be a Python `IndexError`; it cannot
occur because the line is non-empty.) -/
def read_args_line (line : String) : ArgsLineResult :=
  match search_group1 "depends_on:" line with
  | some g1 =>
      .deps (((py_split g1 ':').map pyStrip).filter (fun x => x.length ≠ 0))
  | none =>
      match escaped_split line ':' with
      | [] => .err "list index out of range"
      | function :: args => .case function args

/-- Function `parse_test_data` (lines 576-630) as a recursion over the raw data
file lines.  `line_no` counts the lines already consumed by the
`FileWrapper` (the reader yields `strip(raw) + "\n"` and the parser
strips again, so each processed line is `pyStrip raw`).  `state` is 0
for `STATE_READ_NAME` and 1 for `STATE_READ_ARGS`; `deps` and `name`
are the loop-carried locals and `acc` the cases yielded so far. -/
def parse_test_data_loop (fname : String) :
    List String → Nat → Nat → List String → String → List TestCase →
    Except String (List TestCase)
  | [], line_no, state, _deps, name, acc =>
      if state = 1 then
        .error ("[" ++ fname ++ ":" ++ Nat.repr line_no ++ "] Newline before arguments. "
          ++ "Test function and arguments missing for " ++ name)
      else
        .ok acc
  | raw :: rest, line_no, state, deps, name, acc =>
      let line := pyStrip raw
      if line.length ≠ 0 ∧ line.data.head? = some '#' then
        parse_test_data_loop fname rest (line_no + 1) state deps name acc
      else if line.length = 0 then
        if state = 1 then
          .error ("[" ++ fname ++ ":" ++ Nat.repr (line_no + 1) ++ "] Newline before arguments. "
            ++ "Test function and arguments missing for " ++ name)
        else
          parse_test_data_loop fname rest (line_no + 1) state deps name acc
      else if state = 0 then
        parse_test_data_loop fname rest (line_no + 1) 1 deps line acc
      else
        match read_args_line line with
        | .deps deps' => parse_test_data_loop fname rest (line_no + 1) state deps' name acc
        | .err e => .error e
        | .case function args =>
            parse_test_data_loop fname rest (line_no + 1) 0 [] name
              (acc ++ [⟨name, function, deps, args⟩])

/-- Running `parse_test_data` on a whole data file: all test cases in encounter
order, or the first `GeneratorInputError`. -/
def parse_test_data (fname : String) (lines : List String) : Except String (List TestCase) :=
  parse_test_data_loop fname lines 0 0 [] "" []

/-- Python `list.index` restricted to the total case: position of the
first occurrence of `x` in `l` (`l.length` when absent; the generator
only ever calls it on present elements). -/
def list_index (l : List String) (x : String) : Nat :=
  match l with
  | [] => 0
  | y :: ys => if y = x then 0 else list_index ys x + 1

/-- Function `gen_dep_check` (lines 633-658): the `case` block of the dependency
check for id `dep_id` and tag `dep`.  The `dep_id < 0` guard of the
Python cannot fire for a list index.  A tag that is empty after
splitting the sign raises `GeneratorInputError`. -/
def gen_dep_check (dep_id : Nat) (dep : String) : Except String String :=
  let noT := (split_dep dep).1
  let mac := (split_dep dep).2
  if mac.length = 0 then
    .error "Dependency should not be an empty string."
  else
    .ok ("\n        case " ++ Nat.repr dep_id ++ ":\n            \x7b\n#if " ++ noT
      ++ "defined(" ++ mac ++ ")\n                ret = DEPENDENCY_SUPPORTED;\n#else\n"
      ++ "                ret = DEPENDENCY_NOT_SUPPORTED;\n#endif\n            \x7d\n"
      ++ "            break;")

/-- Function `gen_expression_check` (lines 661-681): the `case` block evaluating
expression `exp` for id `exp_id`; an empty expression raises
`GeneratorInputError`. -/
def gen_expression_check (exp_id : Nat) (exp : String) : Except String String :=
  if exp.length = 0 then
    .error "Expression should not be an empty string."
  else
    .ok ("\n        case " ++ Nat.repr exp_id ++ ":\n            \x7b\n"
      ++ "                *out_value = " ++ exp ++ ";\n            \x7d\n"
      ++ "            break;")

/-- The `for dep in test_deps` loop of `write_deps` (lines 699-706):
interning each tag in `unique_deps` (append on first occurrence, then
`list.index`), writing `:id` for every occurrence and generating the
check code for first occurrences only. -/
def write_deps_loop :
    List String → List String → String → String → Except String (String × String × List String)
  | [], uniq, out, code => .ok (out, code, uniq)
  | dep :: rest, uniq, out, code =>
      if dep ∉ uniq then
        let uniq' := uniq ++ [dep]
        let dep_id := list_index uniq' dep
        match gen_dep_check dep_id dep with
        | .error e => .error e
        | .ok c => write_deps_loop rest uniq' (out ++ ":" ++ Nat.repr dep_id) (code ++ c)
      else
        write_deps_loop rest uniq (out ++ ":" ++ Nat.repr (list_index uniq dep)) code

/-- Function `write_deps` (lines 684-708): when `test_deps` is non-empty, write
`depends_on` then `:id` per dependency then a newline to the
intermediate data file; return the written text, the generated
dependency check code, and the updated `unique_deps` table. -/
def write_deps (test_deps unique_deps : List String) :
    Except String (String × String × List String) :=
  if test_deps.length ≠ 0 then
    match write_deps_loop test_deps unique_deps "depends_on" "" with
    | .error e => .error e
    | .ok (out, code, uniq) => .ok (out ++ "\n", code, uniq)
  else
    .ok ("", "", unique_deps)

/-- Hexadecimal digit set of the character class `[0-9a-fA-F]`. -/
def isHexDigitChar (c : Char) : Bool :=
  c.isDigit || ('a' ≤ c && c ≤ 'f') || ('A' ≤ c && c ≤ 'F')

/-- Success of `re.match('(\d+$)|((0x)?[0-9a-fA-F]+$)', val)` (line 730).
`re.match` anchors at the start of `val`; the first alternative accepts a
non-empty all-digit string, the second accepts `(0x)?` followed by one or
more hex digits up to the end — with `(0x)?` matching either the literal
prefix `0x` or the empty string.  `val` never contains a newline (it is
a field of a stripped line), so `$` means end of string. -/
def int_literal_match (val : String) : Bool :=
  (!val.data.isEmpty && val.data.all Char.isDigit)
  || (!val.data.isEmpty && val.data.all isHexDigitChar)
  || (match val.data with
      | '0' :: 'x' :: rest => !rest.isEmpty && rest.all isHexDigitChar
      | _ => false)

/-- The `for i in range(len(test_args))` loop of `write_parameters`
(lines 725-742): each argument is written as `:type:value`; an argument
bound to an `int` parameter that is not a literal is reclassified as
`exp` and its interned id written in place of the text.  Running out of
`func_args` would be a Python `IndexError` (the caller checks the
lengths first). -/
def write_parameters_loop :
    List String → List String → List String → String → String →
    Except String (String × String × List String)
  | [], _func_args, uniq, out, code => .ok (out ++ "\n", code, uniq)
  | _ :: _, [], _uniq, _out, _code => .error "list index out of range"
  | val :: vs, typ :: ts, uniq, out, code =>
      if typ = "int" ∧ ¬ int_literal_match val then
        if val ∉ uniq then
          match gen_expression_check (list_index (uniq ++ [val]) val) val with
          | .error e => .error e
          | .ok c =>
              write_parameters_loop vs ts (uniq ++ [val])
                (out ++ ":" ++ "exp" ++ ":" ++ Nat.repr (list_index (uniq ++ [val]) val))
                (code ++ c)
        else
          write_parameters_loop vs ts uniq
            (out ++ ":" ++ "exp" ++ ":" ++ Nat.repr (list_index uniq val)) code
      else
        write_parameters_loop vs ts uniq (out ++ ":" ++ typ ++ ":" ++ val) code

/-- Function `write_parameters` (lines 711-744): write all `:type:value` pairs and
the closing newline; return the written text, the generated expression
check code and the updated `unique_expressions` table. -/
def write_parameters (test_args func_args unique_expressions : List String) :
    Except String (String × String × List String) :=
  write_parameters_loop test_args func_args unique_expressions "" ""

/-- Lookup in the `func_info` dictionary built by `parse_functions`:
maps a (prefixed) function name to its `(function id, argument types)`
pair.  The Python uses a `dict`; an association list with unique keys
models it. -/
def dict_get (info : List (String × Nat × List String)) (key : String) :
    Option (Nat × List String) :=
  match info with
  | [] => none
  | (k, v) :: rest => if k = key then some v else dict_get rest key

/-- The mutable state of one `gen_from_test_data` run (lines 791-794 plus
the output file): the two interning tables, the text written to the
intermediate data file so far, and the two accumulated check-code
strings. -/
structure GenState where
  unique_deps : List String
  unique_expressions : List String
  out_data : String
  dep_check_code : String
  expression_code : String
deriving DecidableEq, Repr

/-- The state at the start of a generation run. -/
def init_gen_state : GenState :=
  { unique_deps := [], unique_expressions := [], out_data := "",
    dep_check_code := "", expression_code := "" }

/-- The body of the `for ... in parse_test_data(data_f)` loop of
`gen_from_test_data` (lines 795-819) for one test case: write the name
line, the dependency line via `write_deps`, look the function up in
`func_info` under its `test_` prefixed name (unknown name is a
`GeneratorInputError`), write the function id, check the argument count
(mismatch is a `GeneratorInputError`), write the parameters via
`write_parameters`, and finish with the blank separator line. -/
def run_test_case (func_info : List (String × Nat × List String)) (tc : TestCase)
    (st : GenState) : Except String GenState :=
  let out := st.out_data ++ tc.name ++ "\n"
  match write_deps tc.deps st.unique_deps with
  | .error e => .error e
  | .ok (dep_out, dep_code, unique_deps') =>
      let out := out ++ dep_out
      let test_function_name := "test_" ++ tc.function
      match dict_get func_info test_function_name with
      | none => .error ("Function " ++ test_function_name ++ " not found!")
      | some (func_id, func_args) =>
          let out := out ++ Nat.repr func_id
          if tc.args.length ≠ func_args.length then
            .error ("Invalid number of arguments in test " ++ tc.name
              ++ ". See function " ++ tc.function ++ " signature.")
          else
            match write_parameters tc.args func_args st.unique_expressions with
            | .error e => .error e
            | .ok (par_out, exp_code, unique_expressions') =>
                .ok { unique_deps := unique_deps',
                      unique_expressions := unique_expressions',
                      out_data := out ++ par_out ++ "\n",
                      dep_check_code := st.dep_check_code ++ dep_code,
                      expression_code := st.expression_code ++ exp_code }

/-- All iterations of the `gen_from_test_data` loop over the parsed test
cases, in encounter order. -/
def run_test_cases (func_info : List (String × Nat × List String)) :
    List TestCase → GenState → Except String GenState
  | [], st => .ok st
  | tc :: rest, st =>
      match run_test_case func_info tc st with
      | .error e => .error e
      | .ok st' => run_test_cases func_info rest st'

/-- Function `gen_suite_deps_checks` (lines 747-770): wrap both check-code blocks
in the one-line suite dependency conditional when the suite declares
dependencies. -/
def gen_suite_deps_checks (suite_deps : List String)
    (dep_check_code expression_code : String) : String × String :=
  if suite_deps.length ≠ 0 then
    ("\n" ++ gen_deps_one_line suite_deps ++ "\n" ++ dep_check_code ++ "\n#endif\n",
     "\n" ++ gen_deps_one_line suite_deps ++ "\n" ++ expression_code ++ "\n#endif\n")
  else
    (dep_check_code, expression_code)

/-- Function `gen_from_test_data` (lines 773-823): parse the data file, process
every test case, and wrap the check code in the suite dependency guard.
Returns `(intermediate data file text, dep_check_code, expression_code)`.
(The Python pulls the cases lazily from the `parse_test_data` generator;
parsing first and then folding is observationally the same here because
every error, wherever raised, aborts the whole run.) -/
def gen_from_test_data (fname : String) (lines : List String)
    (func_info : List (String × Nat × List String)) (suite_deps : List String) :
    Except String (String × String × String) :=
  match parse_test_data fname lines with
  | .error e => .error e
  | .ok cases =>
      match run_test_cases func_info cases init_gen_state with
      | .error e => .error e
      | .ok st =>
          let codes := gen_suite_deps_checks suite_deps st.dep_check_code st.expression_code
          .ok (st.out_data, codes.1, codes.2)

/-- One function case of a `.function` file as already parsed by
`parse_function_code` / `parse_function_signature`: the `BEGIN_CASE`
dependency annotation, the signature's function name (before the
`test_` renaming) and argument-type list, and the reader's line number
at the end of the case (used only in the re-declaration error). -/
structure FuncCase where
  deps : List String
  name : String
  args : List String
  line_no : Nat
deriving DecidableEq, Repr

/-- The `BEGIN_CASE` arm of the `parse_functions` loop (lines 528-541),
iterated over all function cases of the file: each case yields its
`/* Function Id: %d */` comment and `gen_dispatch` entry (with the
suite-wide dependencies conjoined before the per-function ones, line
497), is recorded in `func_info` under its `test_` prefixed name with
the next sequential id, and a re-declared name raises
`GeneratorInputError`.  This models a file whose dependency and header
blocks precede every function case, so `suite_deps` is fixed. -/
def parse_functions_loop (fname : String) (suite_deps : List String) :
    List FuncCase → Nat → List (String × Nat × List String) → String →
    Except String (String × List (String × Nat × List String))
  | [], _function_idx, func_info, dispatch_code => .ok (dispatch_code, func_info)
  | fc :: rest, function_idx, func_info, dispatch_code =>
      let func_name := "test_" ++ fc.name
      let func_dispatch := gen_dispatch func_name (suite_deps ++ fc.deps)
      if (dict_get func_info func_name).isSome then
        .error ("file: " ++ fname ++ " - function " ++ func_name
          ++ " re-declared at line " ++ Nat.repr fc.line_no)
      else
        parse_functions_loop fname suite_deps rest (function_idx + 1)
          (func_info ++ [(func_name, function_idx, fc.args)])
          (dispatch_code ++ "/* Function Id: " ++ Nat.repr function_idx ++ " */\n"
            ++ func_dispatch)

/-- The dispatch code and `func_info` table produced by
`parse_functions` for the given function cases. -/
def parse_functions_dispatch (fname : String) (suite_deps : List String)
    (cases : List FuncCase) :
    Except String (String × List (String × Nat × List String)) :=
  parse_functions_loop fname suite_deps cases 0 [] ""

/-- Interning table insertion, as performed by both `write_deps` and
`write_parameters`: on first occurrence append and take `list.index`,
later occurrences reuse the existing index.  Returns the id of every
occurrence in sequence together with the final table. -/
def internIds (uniq : List String) : List String → List Nat × List String
  | [] => ([], uniq)
  | x :: xs =>
      if x ∈ uniq then
        let r := internIds uniq xs
        (list_index uniq x :: r.1, r.2)
      else
        let r := internIds (uniq ++ [x]) xs
        (list_index (uniq ++ [x]) x :: r.1, r.2)

/-- The interning table grown from `u` by the texts of `s` in order:
each first occurrence is appended, repeats are ignored. -/
def firstOccsFrom (u : List String) : List String → List String
  | [] => u
  | x :: xs => firstOccsFrom (if x ∈ u then u else u ++ [x]) xs

/-- The distinct texts of `s` in first-occurrence order. -/
def firstOccs (s : List String) : List String := firstOccsFrom [] s

/-- The `(type, value)` pairs written by `write_parameters` for the given
argument tokens and declared parameter types, with the expression
interning table threaded through: a non-literal token of an `int`
parameter becomes `("exp", id)`, every other token keeps its declared
type and literal text. -/
def classify_args : List String → List String → List String →
    List (String × String) × List String
  | [], _, uniq => ([], uniq)
  | _ :: _, [], uniq => ([], uniq)
  | val :: vs, typ :: ts, uniq =>
      if typ = "int" ∧ ¬ int_literal_match val then
        let uniq' := if val ∈ uniq then uniq else uniq ++ [val]
        let r := classify_args vs ts uniq'
        (("exp", Nat.repr (list_index uniq' val)) :: r.1, r.2)
      else
        let r := classify_args vs ts uniq
        ((typ, val) :: r.1, r.2)

/-- The argument tokens that `write_parameters` interns as expressions,
in order: tokens of `int` parameters that are not integer literals. -/
def exp_tokens : List String → List String → List String
  | [], _ => []
  | _ :: _, [] => []
  | val :: vs, typ :: ts =>
      (if typ = "int" ∧ ¬ int_literal_match val then [val] else []) ++ exp_tokens vs ts

/-- Concatenation of a list of strings. -/
def strJoin : List String → String
  | [] => ""
  | s :: rest => s ++ strJoin rest

/-- The intermediate-data-file record of one test case, as the spec
states it: one line with the display name; a `depends_on` line with
`:id` per dependency exactly when there are dependencies; one line of
the function id followed by `:type:value` per argument; one blank
separator line. -/
def case_record (name : String) (dep_ids : List Nat) (func_id : Nat)
    (typed_args : List (String × String)) : String :=
  name ++ "\n"
    ++ (if dep_ids.length ≠ 0 then
          "depends_on" ++ strJoin (dep_ids.map (fun i => ":" ++ Nat.repr i)) ++ "\n"
        else "")
    ++ Nat.repr func_id
    ++ strJoin (typed_args.map (fun tv => ":" ++ tv.1 ++ ":" ++ tv.2))
    ++ "\n" ++ "\n"

/-- The whole intermediate data file of a run, as a concatenation of
per-case records, with the two interning tables threaded in encounter
order.  (The `dict_get ... = none` arm is never reached on a successful
run.) -/
def run_records (func_info : List (String × Nat × List String)) :
    List TestCase → List String → List String → String
  | [], _, _ => ""
  | tc :: rest, ud, ue =>
      let ids := (internIds ud tc.deps).1
      let ud' := (internIds ud tc.deps).2
      match dict_get func_info ("test_" ++ tc.function) with
      | none => ""
      | some (func_id, func_args) =>
          let typed := (classify_args tc.args func_args ue).1
          let ue' := (classify_args tc.args func_args ue).2
          case_record tc.name ids func_id typed ++ run_records func_info rest ud' ue'

/-- The `#if` conjunction text over a dependency list, exactly as the
spec describes the dispatch guard: `&&`-joined `defined(tag)` tests with
the `!` sign carried to the test. -/
def guard_conjunction (deps : List String) : String :=
  String.intercalate " && "
    (deps.map (fun x => (split_dep x).1 ++ "defined(" ++ (split_dep x).2 ++ ")"))

/-- One dispatch-table entry as the spec states it: under `#if` of the
dependency conjunction the wrapper, otherwise `NULL`; the bare wrapper
when the conjunction is empty. -/
def dispatch_entry_spec (name : String) (conj_deps : List String) : String :=
  if conj_deps = [] then
    "\n    " ++ name ++ "_wrapper,\n"
  else
    "\n#if " ++ guard_conjunction conj_deps ++ "\n    " ++ name
      ++ "_wrapper,\n#else\n    NULL,\n#endif\n"

/-- The `/* Function Id: i */` comment plus dispatch entry of every
function case from index `idx` on, with sequential ids. -/
def dispatch_entries (suite_deps : List String) : Nat → List FuncCase → String
  | _, [] => ""
  | idx, fc :: rest =>
      "/* Function Id: " ++ Nat.repr idx ++ " */\n"
        ++ dispatch_entry_spec ("test_" ++ fc.name) (suite_deps ++ fc.deps)
        ++ dispatch_entries suite_deps (idx + 1) rest

/-- The `func_info` entries of every function case from index `idx` on:
one entry per case, keyed by the `test_` prefixed name, with sequential
ids. -/
def func_info_entries : Nat → List FuncCase → List (String × Nat × List String)
  | _, [] => []
  | idx, fc :: rest => ("test_" ++ fc.name, idx, fc.args) :: func_info_entries (idx + 1) rest

/-! ### Sanity checks on concrete inputs -/

example : escaped_split "foo:a\\:b:1" ':' = ["foo", "a\\:b", "1"] := by decide

example : escaped_split "a::" ':' = ["a", ""] := by decide

example : escaped_split "a:b:" ':' = ["a", "b"] := by decide

example : pyStrip "  int x;\t\n" = "int x;" := by decide

example :
    parse_test_data "t.data" ["# c", "Test A", "depends_on:X: Y", "foo:1:MACRO", ""] =
      .ok [⟨"Test A", "foo", ["X", "Y"], ["1", "MACRO"]⟩] := by decide

example : int_literal_match "123" = true := by decide
example : int_literal_match "0x1aF" = true := by decide
example : int_literal_match "dead" = true := by decide
example : int_literal_match "0x" = false := by decide
example : int_literal_match "MBEDTLS_X" = false := by decide
example : int_literal_match "" = false := by decide
example : int_literal_match "1+1" = false := by decide

example :
    write_parameters ["3", "FOO", "\"s\"", "FOO"] ["int", "int", "char*", "int"] [] =
      .ok (":int:3:exp:0:char*:\"s\":exp:0\n",
        "\n        case 0:\n            \x7b\n                *out_value = FOO;\n            \x7d\n            break;",
        ["FOO"]) := by decide

example :
    gen_from_test_data "t.data" ["Add two", "add:3:4"] [("test_add", 0, ["int", "int"])] [] =
      .ok ("Add two\n0:int:3:int:4\n\n", "", "") := by decide

example : internIds [] ["A", "B", "A", "C", "B"] = ([0, 1, 0, 2, 1], ["A", "B", "C"]) := by
  decide

/-! ### Helper lemmas -/

theorem strJoin_cons (s : String) (l : List String) :
    strJoin (s :: l) = s ++ strJoin l := rfl

theorem list_index_append_of_mem {x : String} {u : List String} (h : x ∈ u)
    (t : List String) : list_index (u ++ t) x = list_index u x := by
  induction u with
  | nil => cases h
  | cons y ys ih =>
      by_cases hyx : y = x
      · simp [list_index, hyx]
      · have hx : x ∈ ys := by
          cases h with
          | head => exact absurd rfl hyx
          | tail _ h' => exact h'
        simp [list_index, hyx, ih hx]

theorem list_index_append_self {x : String} {u : List String} (h : x ∉ u) :
    list_index (u ++ [x]) x = u.length := by
  induction u with
  | nil => simp [list_index]
  | cons y ys ih =>
      have hyx : y ≠ x := fun e => h (e ▸ List.mem_cons_self y ys)
      have hx : x ∉ ys := fun m => h (List.mem_cons_of_mem y m)
      simp [list_index, hyx, ih hx]

theorem list_index_get_of_nodup {u : List String} (h : u.Nodup) (k : Nat)
    (hk : k < u.length) : list_index u (u.get ⟨k, hk⟩) = k := by
  induction u generalizing k with
  | nil => simp at hk
  | cons y ys ih =>
      cases k with
      | zero => simp [list_index]
      | succ k =>
          have hy : y ∉ ys := (List.nodup_cons.mp h).1
          have hne : y ≠ ys.get ⟨k, by simpa using hk⟩ := by
            intro e
            exact hy (e ▸ ys.get_mem _ _)
          simp only [List.get_cons_succ, list_index]
          rw [if_neg hne, ih (List.nodup_cons.mp h).2 k]

theorem firstOccsFrom_extends (s : List String) (u : List String) :
    ∃ t, firstOccsFrom u s = u ++ t := by
  induction s generalizing u with
  | nil => exact ⟨[], by simp [firstOccsFrom]⟩
  | cons x xs ih =>
      by_cases hx : x ∈ u
      · obtain ⟨t, ht⟩ := ih u
        exact ⟨t, by simp [firstOccsFrom, hx, ht]⟩
      · obtain ⟨t, ht⟩ := ih (u ++ [x])
        exact ⟨[x] ++ t, by simp [firstOccsFrom, hx, ht]⟩

theorem firstOccsFrom_nodup {u : List String} (h : u.Nodup) (s : List String) :
    (firstOccsFrom u s).Nodup := by
  induction s generalizing u with
  | nil => simpa [firstOccsFrom] using h
  | cons x xs ih =>
      by_cases hx : x ∈ u
      · simpa [firstOccsFrom, hx] using ih h
      · have : (u ++ [x]).Nodup := by simp [List.nodup_append, h, hx]
        simpa [firstOccsFrom, hx] using ih this

theorem internIds_snd (s u : List String) : (internIds u s).2 = firstOccsFrom u s := by
  induction s generalizing u with
  | nil => simp [internIds, firstOccsFrom]
  | cons x xs ih =>
      by_cases hx : x ∈ u
      · simp [internIds, firstOccsFrom, hx, ih]
      · simp [internIds, firstOccsFrom, hx, ih]

theorem internIds_fst_length (s u : List String) : (internIds u s).1.length = s.length := by
  induction s generalizing u with
  | nil => simp [internIds]
  | cons x xs ih =>
      by_cases hx : x ∈ u
      · simp [internIds, hx, ih]
      · simp [internIds, hx, ih]

theorem internIds_fst_eq_map {u : List String} (h : u.Nodup) (s : List String) :
    (internIds u s).1 = s.map (fun x => list_index (firstOccsFrom u s) x) := by
  induction s generalizing u with
  | nil => simp [internIds]
  | cons x xs ih =>
      by_cases hx : x ∈ u
      · obtain ⟨t, ht⟩ := firstOccsFrom_extends xs u
        have hhead : list_index (firstOccsFrom u xs) x = list_index u x := by
          rw [ht]; exact list_index_append_of_mem hx t
        simp [internIds, firstOccsFrom, hx, ih h, hhead]
      · have hnodup : (u ++ [x]).Nodup := by simp [List.nodup_append, h, hx]
        obtain ⟨t, ht⟩ := firstOccsFrom_extends xs (u ++ [x])
        have hmem : x ∈ u ++ [x] := by simp
        have hhead : list_index (firstOccsFrom (u ++ [x]) xs) x = list_index (u ++ [x]) x := by
          rw [ht]; exact list_index_append_of_mem hmem t
        simp [internIds, firstOccsFrom, hx, ih hnodup, hhead]

theorem write_deps_loop_ok {ds uniq : List String} {out code : String}
    {out' code' : String} {uniq' : List String}
    (h : write_deps_loop ds uniq out code = .ok (out', code', uniq')) :
    out' = out ++ strJoin ((internIds uniq ds).1.map (fun i => ":" ++ Nat.repr i)) ∧
      uniq' = (internIds uniq ds).2 := by
  induction ds generalizing uniq out code with
  | nil =>
      simp only [write_deps_loop, Except.ok.injEq, Prod.mk.injEq] at h
      simp [internIds, strJoin, ← h.1, ← h.2.2]
  | cons dep rest ih =>
      by_cases hdep : dep ∈ uniq
      · simp only [write_deps_loop, hdep, not_true_eq_false, if_false, if_neg] at h
        obtain ⟨h1, h2⟩ := ih h
        refine ⟨?_, by simpa [internIds, hdep] using h2⟩
        rw [h1]
        simp [internIds, hdep, strJoin_cons, String.append_assoc]
      · simp only [write_deps_loop, hdep, not_false_eq_true, if_true, if_pos] at h
        cases hg : gen_dep_check (list_index (uniq ++ [dep]) dep) dep with
        | error e => rw [hg] at h; cases h
        | ok c =>
            rw [hg] at h
            obtain ⟨h1, h2⟩ := ih h
            refine ⟨?_, by simpa [internIds, hdep] using h2⟩
            rw [h1]
            simp [internIds, hdep, strJoin_cons, String.append_assoc]

theorem write_deps_ok {deps uniq : List String} {out code : String} {uniq' : List String}
    (h : write_deps deps uniq = .ok (out, code, uniq')) :
    out = (if deps.length ≠ 0 then
        "depends_on" ++ strJoin ((internIds uniq deps).1.map (fun i => ":" ++ Nat.repr i)) ++ "\n"
      else "") ∧
      uniq' = (internIds uniq deps).2 := by
  by_cases hlen : deps.length ≠ 0
  · rw [write_deps, if_pos hlen] at h
    cases hl : write_deps_loop deps uniq "depends_on" "" with
    | error e => rw [hl] at h; cases h
    | ok r =>
        obtain ⟨o, c, u⟩ := r
        rw [hl] at h
        simp only [Except.ok.injEq, Prod.mk.injEq] at h
        obtain ⟨ho, hu⟩ := write_deps_loop_ok hl
        constructor
        · rw [if_pos hlen, ← h.1, ho]
        · rw [← h.2.2, hu]
  · rw [write_deps, if_neg hlen] at h
    simp only [Except.ok.injEq, Prod.mk.injEq] at h
    have hd : deps = [] := List.length_eq_zero.mp (by omega)
    subst hd
    simp [internIds, ← h.1, ← h.2.2, hlen]

theorem write_parameters_loop_ok {vs ts uniq : List String} {out code : String}
    {out' code' : String} {uniq' : List String}
    (h : write_parameters_loop vs ts uniq out code = .ok (out', code', uniq')) :
    out' = out ++ strJoin ((classify_args vs ts uniq).1.map
        (fun tv => ":" ++ tv.1 ++ ":" ++ tv.2)) ++ "\n" ∧
      uniq' = (classify_args vs ts uniq).2 := by
  induction vs generalizing ts uniq out code with
  | nil =>
      simp only [write_parameters_loop, Except.ok.injEq, Prod.mk.injEq] at h
      simp [classify_args, strJoin, ← h.1, ← h.2.2]
  | cons val vrest ih =>
      cases ts with
      | nil => simp [write_parameters_loop] at h
      | cons typ trest =>
          by_cases hexp : typ = "int" ∧ ¬ int_literal_match val
          · by_cases hval : val ∈ uniq
            · rw [write_parameters_loop, if_pos hexp, if_neg (not_not_intro hval)] at h
              obtain ⟨h1, h2⟩ := ih h
              constructor
              · rw [h1, classify_args, if_pos hexp, if_pos hval]
                simp only [List.map_cons, strJoin_cons, String.append_assoc]
              · rw [h2, classify_args, if_pos hexp, if_pos hval]
            · rw [write_parameters_loop, if_pos hexp, if_pos hval] at h
              cases hg : gen_expression_check (list_index (uniq ++ [val]) val) val with
              | error e => rw [hg] at h; cases h
              | ok c =>
                  rw [hg] at h
                  obtain ⟨h1, h2⟩ := ih h
                  constructor
                  · rw [h1, classify_args, if_pos hexp, if_neg hval]
                    simp only [List.map_cons, strJoin_cons, String.append_assoc]
                  · rw [h2, classify_args, if_pos hexp, if_neg hval]
          · rw [write_parameters_loop, if_neg hexp] at h
            obtain ⟨h1, h2⟩ := ih h
            constructor
            · rw [h1, classify_args, if_neg hexp]
              simp only [List.map_cons, strJoin_cons, String.append_assoc]
            · rw [h2, classify_args, if_neg hexp]

theorem classify_args_snd_eq (vs ts uniq : List String) :
    (classify_args vs ts uniq).2 = (internIds uniq (exp_tokens vs ts)).2 := by
  induction vs generalizing ts uniq with
  | nil => simp [classify_args, exp_tokens, internIds]
  | cons val vrest ih =>
      cases ts with
      | nil => simp [classify_args, exp_tokens, internIds]
      | cons typ trest =>
          by_cases hexp : typ = "int" ∧ ¬ int_literal_match val
          · obtain ⟨ht, hm⟩ := hexp
            have hm' : int_literal_match val = false := by simpa using hm
            by_cases hval : val ∈ uniq
            · simp [classify_args, exp_tokens, internIds, ht, hm', hval, ih]
            · simp [classify_args, exp_tokens, internIds, ht, hm', hval, ih]
          · have hexp' : ¬ (typ = "int" ∧ int_literal_match val = false) := by
              simpa using hexp
            simp [classify_args, exp_tokens, hexp', ih]

theorem run_test_case_ok {fi : List (String × Nat × List String)} {tc : TestCase}
    {st st' : GenState} (h : run_test_case fi tc st = .ok st') :
    ∃ func_id func_args,
      dict_get fi ("test_" ++ tc.function) = some (func_id, func_args) ∧
      tc.args.length = func_args.length ∧
      st'.out_data = st.out_data ++
        case_record tc.name (internIds st.unique_deps tc.deps).1 func_id
          (classify_args tc.args func_args st.unique_expressions).1 ∧
      st'.unique_deps = (internIds st.unique_deps tc.deps).2 ∧
      st'.unique_expressions = (classify_args tc.args func_args st.unique_expressions).2 := by
  unfold run_test_case at h
  cases hw : write_deps tc.deps st.unique_deps with
  | error e => rw [hw] at h; cases h
  | ok r =>
      obtain ⟨dep_out, dep_code, ud'⟩ := r
      rw [hw] at h
      dsimp only at h
      cases hd : dict_get fi ("test_" ++ tc.function) with
      | none => rw [hd] at h; cases h
      | some p =>
          obtain ⟨func_id, func_args⟩ := p
          rw [hd] at h
          dsimp only at h
          by_cases hlen : tc.args.length ≠ func_args.length
          · rw [if_pos hlen] at h; cases h
          · rw [if_neg hlen] at h
            cases hp : write_parameters tc.args func_args st.unique_expressions with
            | error e => rw [hp] at h; cases h
            | ok q =>
                obtain ⟨par_out, exp_code, ue'⟩ := q
                rw [hp] at h
                simp only [Except.ok.injEq] at h
                subst h
                obtain ⟨hdo, hdu⟩ := write_deps_ok hw
                have hp' : write_parameters_loop tc.args func_args st.unique_expressions "" ""
                    = .ok (par_out, exp_code, ue') := hp
                obtain ⟨hpo, hpu⟩ := write_parameters_loop_ok hp'
                refine ⟨func_id, func_args, rfl, not_ne_iff.mp hlen, ?_, hdu, hpu⟩
                rw [hdo, hpo, case_record, internIds_fst_length]
                by_cases hdeps : tc.deps.length ≠ 0
                · rw [if_pos hdeps]
                  simp only [String.append_assoc, String.empty_append]
                · rw [if_neg hdeps]
                  simp only [String.append_assoc, String.empty_append, String.append_empty]

theorem run_test_cases_out {fi : List (String × Nat × List String)} :
    ∀ {cases : List TestCase} {st st' : GenState},
      run_test_cases fi cases st = .ok st' →
      st'.out_data = st.out_data
        ++ run_records fi cases st.unique_deps st.unique_expressions := by
  intro cases
  induction cases with
  | nil =>
      intro st st' h
      simp only [run_test_cases, Except.ok.injEq] at h
      subst h
      simp [run_records]
  | cons tc rest ih =>
      intro st st' h
      simp only [run_test_cases] at h
      cases hc : run_test_case fi tc st with
      | error e => rw [hc] at h; cases h
      | ok st1 =>
          rw [hc] at h
          obtain ⟨fid, fargs, hd, _hlen, hout, hud, hue⟩ := run_test_case_ok hc
          rw [ih h, hout, hud, hue, run_records, hd]
          simp [String.append_assoc]

theorem str_eq_empty_of_length {s : String} (h : s.length = 0) : s = "" := by
  cases s with
  | mk data =>
      cases data with
      | nil => rfl
      | cons c cs => simp [String.length] at h

theorem escaped_split_loop_append (ch : Char) :
    ∀ (cs : List Char) (esc : Bool) (part : String) (out : List String),
      escaped_split_loop ch cs esc part out = out ++ escaped_split_loop ch cs esc part [] := by
  intro cs
  induction cs with
  | nil =>
      intro esc part out
      by_cases hp : part.length ≠ 0
      · simp [escaped_split_loop, hp]
      · simp [escaped_split_loop, hp]
  | cons c rest ih =>
      intro esc part out
      by_cases hc : (!esc && c = ch) = true
      · rw [escaped_split_loop, if_pos hc, escaped_split_loop, if_pos hc, ih _ _ (out ++ [part]),
          ih _ _ ([] ++ [part])]
        simp
      · rw [escaped_split_loop, if_neg hc, escaped_split_loop, if_neg hc, ih]

theorem escaped_split_raw_loop_append (ch : Char) :
    ∀ (cs : List Char) (esc : Bool) (part : String) (out : List String),
      escaped_split_raw_loop ch cs esc part out = out ++ escaped_split_raw_loop ch cs esc part [] := by
  intro cs
  induction cs with
  | nil => intro esc part out; simp [escaped_split_raw_loop]
  | cons c rest ih =>
      intro esc part out
      by_cases hc : (!esc && c = ch) = true
      · rw [escaped_split_raw_loop, if_pos hc, escaped_split_raw_loop, if_pos hc,
          ih _ _ (out ++ [part]), ih _ _ ([] ++ [part])]
        simp
      · rw [escaped_split_raw_loop, if_neg hc, escaped_split_raw_loop, if_neg hc, ih]

theorem escaped_split_raw_loop_ne_nil (ch : Char) :
    ∀ (cs : List Char) (esc : Bool) (part : String),
      escaped_split_raw_loop ch cs esc part [] ≠ [] := by
  intro cs
  induction cs with
  | nil => intro esc part; simp [escaped_split_raw_loop]
  | cons c rest ih =>
      intro esc part
      by_cases hc : (!esc && c = ch) = true
      · rw [escaped_split_raw_loop, if_pos hc, escaped_split_raw_loop_append]
        simp
      · rw [escaped_split_raw_loop, if_neg hc]
        exact ih _ _

theorem strip_last_empty_append (x : List String) {l : List String} (h : l ≠ []) :
    strip_last_empty (x ++ l) = x ++ strip_last_empty l := by
  have hlast : (x ++ l).getLast? = l.getLast? := List.getLast?_append_of_ne_nil x h
  have hdrop : (x ++ l).dropLast = x ++ l.dropLast := by
    cases l with
    | nil => exact absurd rfl h
    | cons y ys => rw [List.dropLast_append_cons]
  unfold strip_last_empty
  by_cases he : l.getLast? = some ""
  · rw [if_pos (hlast.trans he), if_pos he, hdrop]
  · rw [if_neg (fun hx => he (hlast ▸ hx)), if_neg he]

theorem escaped_split_loop_eq_strip (ch : Char) :
    ∀ (cs : List Char) (esc : Bool) (part : String),
      escaped_split_loop ch cs esc part [] =
        strip_last_empty (escaped_split_raw_loop ch cs esc part []) := by
  intro cs
  induction cs with
  | nil =>
      intro esc part
      by_cases hp : part.length ≠ 0
      · have : part ≠ "" := fun he => hp (by simp [he])
        simp [escaped_split_loop, escaped_split_raw_loop, strip_last_empty, hp, this]
      · have : part = "" := str_eq_empty_of_length (by omega)
        simp [escaped_split_loop, escaped_split_raw_loop, strip_last_empty, hp, this]
  | cons c rest ih =>
      intro esc part
      by_cases hc : (!esc && c = ch) = true
      · rw [escaped_split_loop, if_pos hc, escaped_split_raw_loop, if_pos hc,
          escaped_split_loop_append, escaped_split_raw_loop_append,
          strip_last_empty_append _ (escaped_split_raw_loop_ne_nil ch rest esc ""), ih]
      · rw [escaped_split_loop, if_neg hc, escaped_split_raw_loop, if_neg hc, ih]

theorem head?_dropWhile_not {p : Char → Bool} :
    ∀ {l : List Char} {c : Char}, (l.dropWhile p).head? = some c → p c = false := by
  intro l
  induction l with
  | nil => intro c h; simp [List.dropWhile] at h
  | cons x xs ih =>
      intro c h
      by_cases hx : p x = true
      · rw [List.dropWhile_cons_of_pos hx] at h
        exact ih h
      · rw [List.dropWhile_cons_of_neg hx] at h
        simp only [List.head?_cons, Option.some.injEq] at h
        subst h
        simpa using hx

theorem getLast?_dropWhile_ne {p : Char → Bool} :
    ∀ {l : List Char}, l.dropWhile p ≠ [] → (l.dropWhile p).getLast? = l.getLast? := by
  intro l
  induction l with
  | nil => intro h; simp [List.dropWhile] at h
  | cons x xs ih =>
      intro h
      by_cases hx : p x = true
      · rw [List.dropWhile_cons_of_pos hx] at h ⊢
        cases hxs : xs with
        | nil => rw [hxs] at h; simp [List.dropWhile] at h
        | cons y ys =>
            rw [← hxs, ih h, hxs, List.getLast?_cons_cons]
      · rw [List.dropWhile_cons_of_neg hx]

/-- The character list of `pyStrip s`, unfolded. -/
theorem pyStrip_data (s : String) :
    (pyStrip s).data = ((s.data.dropWhile isPySpace).reverse.dropWhile isPySpace).reverse := rfl

theorem pyStrip_head_not_space {s : String} {c : Char}
    (h : (pyStrip s).data.head? = some c) : isPySpace c = false := by
  rw [pyStrip_data, List.head?_reverse] at h
  have hne : (s.data.dropWhile isPySpace).reverse.dropWhile isPySpace ≠ [] := by
    intro he
    rw [he] at h
    cases h
  rw [getLast?_dropWhile_ne hne, List.getLast?_reverse] at h
  exact head?_dropWhile_not h

theorem pyStrip_last_not_space {s : String} {c : Char}
    (h : (pyStrip s).data.getLast? = some c) : isPySpace c = false := by
  rw [pyStrip_data, List.getLast?_reverse] at h
  exact head?_dropWhile_not h

theorem gen_dispatch_eq_spec (name : String) (deps : List String) :
    gen_dispatch name deps = dispatch_entry_spec name deps := by
  by_cases h : deps = []
  · subst h
    simp [gen_dispatch, dispatch_entry_spec]
  · have hlen : deps.length ≠ 0 := by simpa using h
    rw [gen_dispatch, if_pos hlen, dispatch_entry_spec, if_neg h, gen_deps_one_line,
      if_pos hlen, guard_conjunction]
    simp only [String.append_assoc]
    rw [← String.append_assoc]
    exact rfl

theorem dict_get_append (a b : List (String × Nat × List String)) (k : String) :
    dict_get (a ++ b) k =
      (match dict_get a k with
       | some v => some v
       | none => dict_get b k) := by
  induction a with
  | nil => simp [dict_get]
  | cons e rest ih =>
      obtain ⟨k', v⟩ := e
      by_cases hk : k' = k
      · simp [dict_get, hk]
      · simp [dict_get, hk, ih]

theorem parse_functions_loop_ok (fname : String) (suite_deps : List String) :
    ∀ (cases : List FuncCase) (idx : Nat) (info : List (String × Nat × List String))
      (disp : String),
      (cases.map (fun c => "test_" ++ c.name)).Nodup →
      (∀ c ∈ cases, dict_get info ("test_" ++ c.name) = none) →
      parse_functions_loop fname suite_deps cases idx info disp =
        .ok (disp ++ dispatch_entries suite_deps idx cases,
          info ++ func_info_entries idx cases) := by
  intro cases
  induction cases with
  | nil =>
      intro idx info disp _ _
      simp [parse_functions_loop, dispatch_entries, func_info_entries]
  | cons fc rest ih =>
      intro idx info disp hnodup hnone
      have hfc : dict_get info ("test_" ++ fc.name) = none :=
        hnone fc (List.mem_cons_self fc rest)
      have hnotin : "test_" ++ fc.name ∉ rest.map (fun c => "test_" ++ c.name) :=
        (List.nodup_cons.mp (by simpa using hnodup)).1
      rw [parse_functions_loop, hfc]
      simp only [Option.isSome_none, Bool.false_eq_true, if_false, if_neg]
      rw [ih (idx + 1) (info ++ [("test_" ++ fc.name, idx, fc.args)]) _
        (List.nodup_cons.mp (by simpa using hnodup)).2 ?_]
      · rw [dispatch_entries, func_info_entries, gen_dispatch_eq_spec]
        simp [String.append_assoc]
      · intro c hc
        rw [dict_get_append, hnone c (List.mem_cons_of_mem fc hc)]
        have hne : "test_" ++ fc.name ≠ "test_" ++ c.name := by
          intro he
          exact hnotin (he ▸ List.mem_map_of_mem (fun c => "test_" ++ c.name) hc)
        simp [dict_get, hne]

/-! ### Claims -/

/-- C1: for every test case parsed from the data file, in encounter
order, the intermediate data file receives exactly the record
`case_record`: one line with the case's display name; then, iff the
case has a non-empty dependency list, one `depends_on` line with `:id`
per interned dependency id; then one line of the function's interned
numeric id followed by `:type:value` per argument; then one blank
separator line — and every type tag is one of `int`, `char*`, `hex`,
`exp` whenever the declared parameter types are among `int`, `char*`,
`hex`. -/
theorem c1_intermediate_data_file_format :
    (∀ (fname : String) (lines : List String)
        (func_info : List (String × Nat × List String)) (suite_deps : List String)
        (out dep_code exp_code : String),
      gen_from_test_data fname lines func_info suite_deps = .ok (out, dep_code, exp_code) →
      ∃ cs, parse_test_data fname lines = .ok cs ∧
        out = run_records func_info cs [] []) ∧
    (∀ (args fargs uniq : List String),
      (∀ t ∈ fargs, t = "int" ∨ t = "char*" ∨ t = "hex") →
      ∀ tv ∈ (classify_args args fargs uniq).1,
        tv.1 = "int" ∨ tv.1 = "char*" ∨ tv.1 = "hex" ∨ tv.1 = "exp") := by
  constructor
  · intro fname lines func_info suite_deps out dep_code exp_code h
    unfold gen_from_test_data at h
    cases hp : parse_test_data fname lines with
    | error e => rw [hp] at h; cases h
    | ok cs =>
        rw [hp] at h
        dsimp only at h
        cases hr : run_test_cases func_info cs init_gen_state with
        | error e => rw [hr] at h; cases h
        | ok st =>
            rw [hr] at h
            refine ⟨cs, rfl, ?_⟩
            have hout := run_test_cases_out hr
            simp only [Except.ok.injEq, Prod.mk.injEq] at h
            rw [← h.1, hout]
            simp [init_gen_state, String.empty_append]
  · intro args
    induction args with
    | nil => intro fargs uniq _ tv htv; simp [classify_args] at htv
    | cons val vs ih =>
        intro fargs uniq hty tv htv
        cases fargs with
        | nil => simp [classify_args] at htv
        | cons typ ts =>
            by_cases hexp : typ = "int" ∧ ¬ int_literal_match val
            · rw [classify_args, if_pos hexp] at htv
              rcases List.mem_cons.mp htv with he | he
              · subst he; simp
              · exact ih ts _ (fun t ht => hty t (List.mem_cons_of_mem typ ht)) tv he
            · rw [classify_args, if_neg hexp] at htv
              rcases List.mem_cons.mp htv with he | he
              · subst he
                rcases hty typ (List.mem_cons_self typ ts) with h | h | h <;> simp [h]
              · exact ih ts _ (fun t ht => hty t (List.mem_cons_of_mem typ ht)) tv he

/-- Witness for C1 at the spec's own end-to-end example: one case
`Add two` calling `add:3:4` against `void add(int a, int b)`. -/
theorem c1_witness :
    gen_from_test_data "t.data" ["Add two", "add:3:4"] [("test_add", 0, ["int", "int"])] [] =
      .ok ("Add two\n0:int:3:int:4\n\n", "", "") ∧
    (∃ cs, parse_test_data "t.data" ["Add two", "add:3:4"] = .ok cs ∧
      "Add two\n0:int:3:int:4\n\n" = run_records [("test_add", 0, ["int", "int"])] cs [] []) :=
  ⟨by decide, c1_intermediate_data_file_format.1 "t.data" ["Add two", "add:3:4"]
    [("test_add", 0, ["int", "int"])] [] "Add two\n0:int:3:int:4\n\n" "" "" (by decide)⟩

/-- C2: for every valid functions file (no re-declared name), the
generated dispatch code is exactly one entry per declared function, in
declaration order, with sequential function ids starting at 0; each
entry is `dispatch_entry_spec`: guarded by `#if` of exactly the
conjunction of suite-wide and per-function dependency tags with the
wrapper under the guard and `NULL` otherwise, and the bare wrapper when
the conjunction is empty. -/
theorem c2_dispatch_table :
    ∀ (fname : String) (suite_deps : List String) (cs : List FuncCase),
      (cs.map (fun c => "test_" ++ c.name)).Nodup →
      parse_functions_dispatch fname suite_deps cs =
        .ok (dispatch_entries suite_deps 0 cs, func_info_entries 0 cs) ∧
      (∀ name deps, gen_dispatch name deps = dispatch_entry_spec name deps) := by
  intro fname suite_deps cs h
  refine ⟨?_, gen_dispatch_eq_spec⟩
  have hmain := parse_functions_loop_ok fname suite_deps cs 0 [] "" h (fun c _ => rfl)
  rw [parse_functions_dispatch, hmain, String.empty_append]
  simp

set_option maxRecDepth 8000 in
/-- Witness for C2: two functions, the second with a dependency, under
one suite-wide dependency. -/
theorem c2_witness :
    ([⟨[], "add", ["int", "int"], 7⟩, ⟨["FOO"], "sub", ["int"], 9⟩].map
      (fun c : FuncCase => "test_" ++ c.name)).Nodup ∧
    parse_functions_dispatch "f.function" ["SUITE"]
        [⟨[], "add", ["int", "int"], 7⟩, ⟨["FOO"], "sub", ["int"], 9⟩] =
      .ok ("/* Function Id: 0 */\n\n#if defined(SUITE)\n    test_add_wrapper,\n#else\n    NULL,\n#endif\n"
          ++ "/* Function Id: 1 */\n\n#if defined(SUITE) && defined(FOO)\n    test_sub_wrapper,\n#else\n    NULL,\n#endif\n",
        [("test_add", 0, ["int", "int"]), ("test_sub", 1, ["int"])]) :=
  ⟨by decide,
    by
      have h := (c2_dispatch_table "f.function" ["SUITE"]
        [⟨[], "add", ["int", "int"], 7⟩, ⟨["FOO"], "sub", ["int"], 9⟩] (by decide)).1
      rw [h]
      decide⟩

/-- C3: within one run, repeated occurrences of the same dependency tag
text and of the same expression text receive the same id (every
occurrence's id is a function of the final interning table and the
text), ids are assigned consecutively starting at 0 in first-occurrence
order, and `write_deps` / `write_parameters` intern through exactly this
scheme in their two separate tables. -/
theorem c3_interning_stable :
    (∀ (u s : List String), u.Nodup →
      (internIds u s).1 = s.map (fun x => list_index (internIds u s).2 x)) ∧
    (∀ s : List String, (internIds [] s).2 = firstOccs s ∧ (firstOccs s).Nodup ∧
      ∀ k (hk : k < (firstOccs s).length),
        list_index (firstOccs s) ((firstOccs s).get ⟨k, hk⟩) = k) ∧
    (∀ (deps u : List String) (out code : String) (u' : List String),
      write_deps deps u = .ok (out, code, u') →
      u' = (internIds u deps).2 ∧
      out = (if deps.length ≠ 0 then
          "depends_on" ++ strJoin ((internIds u deps).1.map (fun i => ":" ++ Nat.repr i)) ++ "\n"
        else "")) ∧
    (∀ (args fargs u : List String) (out code : String) (u' : List String),
      write_parameters args fargs u = .ok (out, code, u') →
      u' = (internIds u (exp_tokens args fargs)).2) := by
  refine ⟨?_, ?_, ?_, ?_⟩
  · intro u s hu
    rw [internIds_snd]
    exact internIds_fst_eq_map hu s
  · intro s
    refine ⟨internIds_snd s [], firstOccsFrom_nodup List.nodup_nil s, ?_⟩
    intro k hk
    exact list_index_get_of_nodup (firstOccsFrom_nodup List.nodup_nil s) k hk
  · intro deps u out code u' h
    obtain ⟨ho, hu⟩ := write_deps_ok h
    exact ⟨hu, ho⟩
  · intro args fargs u out code u' h
    obtain ⟨_, hu⟩ := write_parameters_loop_ok h
    rw [hu, classify_args_snd_eq]

/-- Witness for C3 on the occurrence sequence `A B A C B`. -/
theorem c3_witness :
    ([] : List String).Nodup ∧
    (internIds [] ["A", "B", "A", "C", "B"]).1 =
      ["A", "B", "A", "C", "B"].map
        (fun x => list_index (internIds [] ["A", "B", "A", "C", "B"]).2 x) :=
  ⟨List.nodup_nil, c3_interning_stable.1 [] ["A", "B", "A", "C", "B"] List.nodup_nil⟩

/-- C4: `write_parameters` writes each argument as the `:type:value`
pair produced by `classify_args`; for a token bound to an `int`
parameter, a token matching the integer-literal regular expression is
written with type tag `int` and its literal text unchanged, and any
other token is written with type tag `exp` and the interned expression
id in place of the text. -/
theorem c4_int_argument_classification :
    (∀ (args fargs uniq : List String) (out code : String) (uniq' : List String),
      write_parameters args fargs uniq = .ok (out, code, uniq') →
      out = strJoin ((classify_args args fargs uniq).1.map
        (fun tv => ":" ++ tv.1 ++ ":" ++ tv.2)) ++ "\n") ∧
    (∀ (val : String) (vs ts uniq : List String),
      (int_literal_match val = true →
        (classify_args (val :: vs) ("int" :: ts) uniq).1.head? = some ("int", val)) ∧
      (int_literal_match val = false → uniq.Nodup →
        (classify_args (val :: vs) ("int" :: ts) uniq).1.head? =
          some ("exp", Nat.repr
            (list_index (internIds uniq (exp_tokens (val :: vs) ("int" :: ts))).2 val)))) := by
  constructor
  · intro args fargs uniq out code uniq' h
    obtain ⟨ho, _⟩ := write_parameters_loop_ok h
    rw [ho, String.empty_append]
  · intro val vs ts uniq
    constructor
    · intro hm
      have hne : ¬ ("int" = "int" ∧ ¬ int_literal_match val) := by simp [hm]
      rw [classify_args, if_neg hne]
      rfl
    · intro hm hu
      have he : ("int" = "int" ∧ ¬ int_literal_match val) := by simp [hm]
      rw [classify_args, if_pos he, internIds_snd, exp_tokens, if_pos he,
        List.singleton_append, firstOccsFrom]
      obtain ⟨t, ht⟩ := firstOccsFrom_extends (exp_tokens vs ts)
        (if val ∈ uniq then uniq else uniq ++ [val])
      rw [ht, list_index_append_of_mem (by by_cases hv : val ∈ uniq <;> simp [hv]) t]
      rfl

/-- Witness for C4: the literal `42` stays `int`, the macro name `BAR`
becomes `exp` id 0. -/
theorem c4_witness :
    int_literal_match "42" = true ∧
    (classify_args ["42"] ["int"] []).1.head? = some ("int", "42") ∧
    int_literal_match "BAR" = false ∧ ([] : List String).Nodup ∧
    (classify_args ["BAR"] ["int"] []).1.head? =
      some ("exp", Nat.repr (list_index (internIds [] (exp_tokens ["BAR"] ["int"])).2 "BAR")) :=
  ⟨by decide,
    (c4_int_argument_classification.2 "42" [] [] []).1 (by decide),
    by decide, List.nodup_nil,
    (c4_int_argument_classification.2 "BAR" [] [] []).2 (by decide) List.nodup_nil⟩

/-- C5 counterexample: a data file whose case references the undeclared
function `nosuch` aborts with a `GeneratorInputError`, but its message
is the fixed text `Function test_nosuch not found!` — identical for two
different data file names, containing neither the data file's name nor
any digit, so it carries no file name and no line number. -/
theorem c5_counterexample :
    gen_from_test_data "suite.data" ["My test", "nosuch:4"] [("test_f", 0, ["int"])] [] =
      .error "Function test_nosuch not found!" ∧
    gen_from_test_data "other.data" ["My test", "nosuch:4"] [("test_f", 0, ["int"])] [] =
      .error "Function test_nosuch not found!" ∧
    strContains "Function test_nosuch not found!" "suite.data" = false ∧
    "Function test_nosuch not found!".data.all (fun c => !c.isDigit) = true := by
  decide

/-- C5 amended: an unknown function reference or an argument-count
mismatch aborts generation with a `GeneratorInputError`, and the error
propagates through the case loop; the unknown-function message names
only the prefixed function and the mismatch message only the test and
function names — neither carries the data file name or line number. -/
theorem c5_fatal_errors_without_location :
    (∀ (fi : List (String × Nat × List String)) (tc : TestCase) (st : GenState)
        (w : String × String × List String),
      write_deps tc.deps st.unique_deps = .ok w →
      dict_get fi ("test_" ++ tc.function) = none →
      run_test_case fi tc st =
        .error ("Function " ++ ("test_" ++ tc.function) ++ " not found!")) ∧
    (∀ (fi : List (String × Nat × List String)) (tc : TestCase) (st : GenState)
        (w : String × String × List String) (func_id : Nat) (func_args : List String),
      write_deps tc.deps st.unique_deps = .ok w →
      dict_get fi ("test_" ++ tc.function) = some (func_id, func_args) →
      tc.args.length ≠ func_args.length →
      run_test_case fi tc st =
        .error ("Invalid number of arguments in test " ++ tc.name
          ++ ". See function " ++ tc.function ++ " signature.")) ∧
    (∀ (fi : List (String × Nat × List String)) (tc : TestCase) (rest : List TestCase)
        (st : GenState) (e : String),
      run_test_case fi tc st = .error e →
      run_test_cases fi (tc :: rest) st = .error e) := by
  refine ⟨?_, ?_, ?_⟩
  · intro fi tc st w hw hd
    obtain ⟨a, b, u⟩ := w
    unfold run_test_case
    rw [hw]
    dsimp only
    rw [hd]
  · intro fi tc st w func_id func_args hw hd hlen
    obtain ⟨a, b, u⟩ := w
    unfold run_test_case
    rw [hw]
    dsimp only
    rw [hd]
    dsimp only
    rw [if_pos hlen]
  · intro fi tc rest st e he
    simp only [run_test_cases]
    rw [he]

/-- Witness for C5 (amended): the unknown-function error at a concrete
case. -/
theorem c5_witness :
    write_deps ([] : List String) ([] : List String) = .ok ("", "", []) ∧
    run_test_case [] { name := "T", function := "nosuch", deps := [], args := [] }
        init_gen_state =
      .error ("Function " ++ ("test_" ++ "nosuch") ++ " not found!") :=
  ⟨by decide,
    c5_fatal_errors_without_location.1 []
      { name := "T", function := "nosuch", deps := [], args := [] }
      init_gen_state ("", "", []) (by decide) (by decide)⟩

/-- C6 counterexample: in one run the tags `FOO` and `!FOO` are interned
as two distinct entries with ids 0 and 1 — the data line written is
`depends_on:0:1`, not a repetition of one id. -/
theorem c6_counterexample :
    (write_deps ["FOO", "!FOO"] []).toOption.map (fun r => (r.1, r.2.2)) =
      some ("depends_on:0:1\n", ["FOO", "!FOO"]) ∧
    list_index ["FOO", "!FOO"] "FOO" = 0 ∧ list_index ["FOO", "!FOO"] "!FOO" = 1 := by
  decide

theorem split_dep_of_head_ne {t : String} (h : t.data.head? ≠ some '!') :
    split_dep t = ("", t) := by
  unfold split_dep
  split
  · rename_i rest heq
    exact absurd (by rw [heq]; rfl) h
  · rfl

theorem split_dep_bang (t : String) : split_dep ("!" ++ t) = ("!", t) := by
  have h1 : split_dep ("!" ++ t) = ("!", String.mk t.data) := rfl
  have hmk : String.mk t.data = t := by cases t; rfl
  rw [h1, hmk]

/-- C6 amended: a tag and its negation differing only by the leading
`!` are interned as two distinct texts with distinct consecutive ids
(interning keys on the full tag text, sign included); the `!` is split
off only at the use sites — `split_dep` strips it for the generated
checks, mapping both `t` and `!t` to the macro `t`. -/
theorem c6_negation_interned_separately :
    ∀ t : String, 0 < t.length → t.data.head? ≠ some '!' →
      (write_deps [t, "!" ++ t] []).toOption.map (fun r => (r.1, r.2.2)) =
        some ("depends_on:0:1\n", [t, "!" ++ t]) ∧
      (split_dep t).2 = t ∧ (split_dep ("!" ++ t)).2 = t := by
  intro t hlen hhead
  have hlen' : t.length ≠ 0 := by omega
  have hne : ("!" ++ t) ≠ t := by
    intro he
    have h2 := congrArg String.length he
    rw [String.length_append] at h2
    have h3 : ("!" : String).length = 1 := rfl
    rw [h3] at h2
    omega
  have hne' : t ≠ "!" ++ t := fun h => hne h.symm
  refine ⟨?_, by rw [split_dep_of_head_ne hhead], by rw [split_dep_bang]⟩
  have hmem1 : t ∉ ([] : List String) := by simp
  have hmem2 : ("!" ++ t) ∉ [t] := by simp [hne]
  have hidx0 : list_index [t] t = 0 := by simp [list_index]
  have hidx1 : list_index [t, "!" ++ t] ("!" ++ t) = 1 := by simp [list_index, hne']
  obtain ⟨c0, hg0⟩ : ∃ c, gen_dep_check 0 t = .ok c := by
    unfold gen_dep_check
    rw [split_dep_of_head_ne hhead]
    dsimp only
    rw [if_neg (by simpa using hlen')]
    exact ⟨_, rfl⟩
  obtain ⟨c1, hg1⟩ : ∃ c, gen_dep_check 1 ("!" ++ t) = .ok c := by
    unfold gen_dep_check
    rw [split_dep_bang]
    dsimp only
    rw [if_neg (by simpa using hlen')]
    exact ⟨_, rfl⟩
  rw [write_deps, if_pos (by simp)]
  simp only [write_deps_loop, hmem1, hmem2, hidx0, hidx1, hg0, hg1, List.nil_append,
    List.singleton_append, not_false_eq_true, ite_true, ite_false, if_pos, if_neg,
    Except.toOption, Option.map_some']
  rfl

/-- Witness for C6 (amended) at `t = FOO`. -/
theorem c6_witness :
    0 < "FOO".length ∧ "FOO".data.head? ≠ some '!' ∧
    ((write_deps ["FOO", "!" ++ "FOO"] []).toOption.map (fun r => (r.1, r.2.2)) =
        some ("depends_on:0:1\n", ["FOO", "!" ++ "FOO"]) ∧
      (split_dep "FOO").2 = "FOO" ∧ (split_dep ("!" ++ "FOO")).2 = "FOO") :=
  ⟨by decide, by decide,
    c6_negation_interned_separately "FOO" (by decide) (by decide)⟩

/-- C7 counterexample: splitting the argument line `foo:a\:b:1` yields
the function name `foo` and the argument tokens `a\:b` and `1` — the
escaped colon is kept inside one field, but the backslash is retained,
so the token is not the claimed `a:b`. -/
theorem c7_counterexample :
    parse_test_data "x.data" ["t1", "foo:a\\:b:1"] =
      .ok [{ name := "t1", function := "foo", deps := [], args := ["a\\:b", "1"] }] ∧
    (["a\\:b", "1"] ≠ ["a:b", "1"]) := by
  decide

/-- C7 amended: splitting `foo:a\:b:1` yields function name `foo` and
exactly the two tokens `a\:b` and `1`: the backslash-escaped colon does
not act as a field separator, and the escape character is retained in
the token (un-escaping is left to the downstream consumer). -/
theorem c7_escaped_colon_split :
    escaped_split "foo:a\\:b:1" ':' = ["foo", "a\\:b", "1"] ∧
    parse_test_data "x.data" ["t1", "foo:a\\:b:1"] =
      .ok [{ name := "t1", function := "foo", deps := [], args := ["a\\:b", "1"] }] := by
  decide

/-- C8 counterexample: in the expect-args state the line
`f:depends_on:A` does not begin with the prefix `depends_on:` and yet is
recorded as the case's dependency list (the case then takes `g:1` as its
argument line, yielding function `g` with deps `[A]`). -/
theorem c8_counterexample :
    parse_test_data "x.data" ["t1", "f:depends_on:A", "g:1"] =
      .ok [{ name := "t1", function := "g", deps := ["A"], args := ["1"] }] ∧
    list_starts_with "f:depends_on:A".data "depends_on:".data = false := by
  decide

/-- C8 amended: a non-blank, non-comment line consumed in the
expect-args state is recorded as the case's dependency list if and only
if it contains the substring `depends_on:` anywhere (the scanner uses a
search, not an anchored match); every other such line is the argument
line, split by `escaped_split` into the function name and the argument
tokens. -/
theorem c8_depends_on_line_recognition :
    ∀ line : String,
      ((∃ d, read_args_line line = .deps d) ↔ strContains line "depends_on:" = true) ∧
      (∀ fn args, read_args_line line = .case fn args →
        escaped_split line ':' = fn :: args ∧ strContains line "depends_on:" = false) := by
  intro line
  unfold read_args_line search_group1 strContains
  cases h : drop_after_first line.data "depends_on:".data with
  | some g =>
      constructor
      · simp
      · intro fn args hcase
        simp at hcase
  | none =>
      constructor
      · constructor
        · intro ⟨d, hd⟩
          simp only [Option.map_none'] at hd
          cases hs : escaped_split line ':' with
          | nil => rw [hs] at hd; cases hd
          | cons f a => rw [hs] at hd; cases hd
        · intro hc
          simp at hc
      · intro fn args hcase
        simp only [Option.map_none'] at hcase
        cases hs : escaped_split line ':' with
        | nil => rw [hs] at hcase; cases hcase
        | cons f a =>
            rw [hs] at hcase
            cases hcase
            exact ⟨rfl, by simp⟩

/-- Witness for C8 (amended): `f:1` is an argument line. -/
theorem c8_witness :
    read_args_line "f:1" = .case "f" ["1"] ∧
    (escaped_split "f:1" ':' = "f" :: ["1"] ∧ strContains "f:1" "depends_on:" = false) :=
  ⟨by decide, (c8_depends_on_line_recognition "f:1").2 "f" ["1"] (by decide)⟩

/-- C9: every line the reader yields is the raw line stripped of all
leading and trailing whitespace with exactly one newline appended, and
each successful read increments `line_no` by exactly 1; the stripped
part has neither leading nor trailing whitespace, so no yielded
fragment preserves the original leading indentation. -/
theorem c9_line_reader :
    ∀ (f : FileWrapper) (l : String) (f' : FileWrapper),
      f.next = some (l, f') →
      f'.line_no = f.line_no + 1 ∧
      ∃ raw, f.lines = raw :: f'.lines ∧ l = pyStrip raw ++ "\n" ∧
        (∀ c, (pyStrip raw).data.head? = some c → isPySpace c = false) ∧
        (∀ c, (pyStrip raw).data.getLast? = some c → isPySpace c = false) := by
  intro f l f' h
  unfold FileWrapper.next at h
  cases hls : f.lines with
  | nil => rw [hls] at h; cases h
  | cons raw rest =>
      rw [hls] at h
      simp only [Option.some.injEq, Prod.mk.injEq] at h
      obtain ⟨hl, hf'⟩ := h
      subst hf'
      refine ⟨rfl, raw, rfl, hl.symm,
        fun c => pyStrip_head_not_space, fun c => pyStrip_last_not_space⟩

/-- Witness for C9 on the raw line `"  int x;  "` read at line 5. -/
theorem c9_witness :
    (⟨"t.data", ["  int x;  "], 5⟩ : FileWrapper).next =
      some ("int x;\n", ⟨"t.data", [], 6⟩) ∧
    ((⟨"t.data", [], 6⟩ : FileWrapper).line_no =
        (⟨"t.data", ["  int x;  "], 5⟩ : FileWrapper).line_no + 1 ∧
      ∃ raw, (⟨"t.data", ["  int x;  "], 5⟩ : FileWrapper).lines =
          raw :: (⟨"t.data", [], 6⟩ : FileWrapper).lines ∧
        "int x;\n" = pyStrip raw ++ "\n" ∧
        (∀ c, (pyStrip raw).data.head? = some c → isPySpace c = false) ∧
        (∀ c, (pyStrip raw).data.getLast? = some c → isPySpace c = false)) :=
  ⟨by decide, c9_line_reader _ _ _ (by decide)⟩

/-- C10 counterexample: `escaped_split` applied to `a::` yields
`["a", ""]`, whose last field is empty — a trailing empty field in the
output, refuting "never produces a trailing empty field". -/
theorem c10_counterexample :
    escaped_split "a::" ':' = ["a", ""] ∧ ["a", ""].getLast? = some "" := by
  decide

/-- C10 amended: `escaped_split` equals the raw unescaped-separator
field decomposition with the final field dropped exactly when that
final field is empty (as for an input ending in an unescaped separator);
interior empty fields are all preserved, and the output can still end
in an empty field when the input ends in two or more separators. -/
theorem c10_last_field_drop :
    ∀ (s : String) (ch : Char),
      escaped_split s ch = strip_last_empty (escaped_split_raw s ch) ∧
      escaped_split_raw s ch ≠ [] := by
  intro s ch
  exact ⟨escaped_split_loop_eq_strip ch s.data false "",
    escaped_split_raw_loop_ne_nil ch s.data false ""⟩

end GenTestCode
